import Mathlib

/-!
# Verification of django-snooze against its specification

A shallow embedding of the django-snooze REST layer
(`django_snooze/fields.py`, `views.py`, `resource.py`, `apis.py`) in Lean 4,
together with theorems settling the specification claims about it.

Conventions of the embedding:
* Python values that flow through the serialisation layer are modelled by the
  inductive `PyVal`; Python floats are abstracted as rationals (only their
  truthiness and numeric value matter to the code under study, never their
  bit-level representation), and `str()` of non-string values is abstracted
  by a total function `pyStr` (no claim depends on the exact repr text).
* Fallible Python code is modelled in the `Except PyExc` monad; uncaught
  exceptions (`TypeError`, `AttributeError`, `ValueError`, `IndexError`,
  `KeyError`) and the library's own `RESTError` are its error values.
* Python dictionaries are association lists updated with `dinsert`
  (replace-in-place if the key exists, append otherwise), preserving
  insertion order exactly as CPython / `OrderedDict` do.
* The ORM boundary (queryset execution, model forms) is kept symbolic:
  querysets are the syntax tree `QS` of the filter/exclude/order_by/
  values_list calls the code issues, and model forms are abstract
  validate/errors/save functions.
-/

namespace Snooze

/-- Python values seen by the serialisation layer. -/
inductive PyVal where
  | none
  | bool (b : Bool)
  | int (n : Int)
  | float (q : Rat)
  | str (s : String)
  | date (iso : String)
  | obj (pk : Int)
  | list (l : List PyVal)
  | dict (l : List (String × PyVal))
deriving Repr, BEq

/-- Exceptions that the embedded code can raise: the Python built-ins it can
hit, plus django_snooze's own `RESTError` (`exceptions.py`), which carries a
status code and serialisable content. -/
inductive PyExc where
  | typeError
  | attributeError
  | valueError
  | indexError
  | keyError
  | restError (status : Nat) (content : PyVal)
deriving Repr, BEq

/-- Python truthiness (`bool(v)`): `None`, `False`, zero, and empty
containers are falsy. -/
def truthy : PyVal → Bool
  | .none => false
  | .bool b => b
  | .int n => n != 0
  | .float q => q != 0
  | .str s => s != ""
  | .date _ => true
  | .obj _ => true
  | .list l => !l.isEmpty
  | .dict l => !l.isEmpty

/-- Python `str(v)`.  Exact for strings, booleans, integers and dates
(`str` of a date is its ISO form); the repr of the remaining cases is
abstracted (no claim depends on it). -/
def pyStr : PyVal → String
  | .none => "None"
  | .bool true => "True"
  | .bool false => "False"
  | .int n => toString n
  | .float q => toString q
  | .str s => s
  | .date iso => iso
  | .obj pk => "<object " ++ toString pk ++ ">"
  | .list _ => "<list>"
  | .dict _ => "<dict>"

/-- Digit-string to number, `Option.none` if empty or non-digit. -/
def digitsToNat (l : List Char) : Option Nat :=
  if l.isEmpty then Option.none
  else l.foldl
    (fun acc c => acc.bind
      (fun n => if c.isDigit then some (n * 10 + (c.toNat - '0'.toNat)) else Option.none))
    (some 0)

/-- Python `int(s)` on a string: optional sign then digits. -/
def pyIntOfStr (s : String) : Option Int :=
  match s.data with
  | '-' :: rest => (digitsToNat rest).map (fun n => -(n : Int))
  | l => (digitsToNat l).map (fun n => (n : Int))

/-- Python `int(v)`: truncates floats toward zero, parses strings, raises
`TypeError` on `None` and other non-numeric values. -/
def pyInt : PyVal → Except PyExc PyVal
  | .int n => .ok (.int n)
  | .bool b => .ok (.int (if b then 1 else 0))
  | .float q => .ok (.int (if 0 ≤ q then q.floor else q.ceil))
  | .str s =>
    match pyIntOfStr s with
    | some n => .ok (.int n)
    | Option.none => .error .valueError
  | _ => .error .typeError

/-- Split a character list on a single separator character (Python
`s.split(c)` semantics: `n` separators yield `n + 1` parts). -/
def splitChar (sep : Char) : List Char → List (List Char)
  | [] => [[]]
  | c :: rest =>
    if c = sep then [] :: splitChar sep rest
    else
      match splitChar sep rest with
      | [] => [[c]]
      | h :: t => (c :: h) :: t

/-- Python `float(s)` on a string: optional sign, digits, optional
fractional part. -/
def pyFloatOfStr (s : String) : Option Rat :=
  let core : List Char → Option Rat := fun l =>
    match splitChar '.' l with
    | [a] => (digitsToNat a).map (fun n => (n : Rat))
    | [a, b] =>
      (digitsToNat a).bind (fun n =>
        (digitsToNat b).map (fun f => (n : Rat) + (f : Rat) / ((10 : Rat) ^ b.length)))
    | _ => Option.none
  match s.data with
  | '-' :: rest => (core rest).map (fun q => -q)
  | l => core l

/-- Python `float(v)`. -/
def pyFloat : PyVal → Except PyExc PyVal
  | .float q => .ok (.float q)
  | .int n => .ok (.float n)
  | .bool b => .ok (.float (if b then 1 else 0))
  | .str s =>
    match pyFloatOfStr s with
    | some q => .ok (.float q)
    | Option.none => .error .valueError
  | _ => .error .typeError

/-- The adapter classes defined in `django_snooze/fields.py`, one
constructor per Python class. -/
inductive FieldCls where
  | Field
  | IntegerField
  | PositiveIntegerField
  | PositiveSmallIntegerField
  | BigIntegerField
  | AutoField
  | DecimalField
  | FloatField
  | BooleanField
  | NullBooleanField
  | CharField
  | SlugField
  | CommaSeparatedIntegerField
  | EmailField
  | URLField
  | TextField
  | FileField
  | FilePathField
  | ImageField
  | DateField
  | DateTimeField
  | TimeField
  | IPAddressField
  | GenericIPAddressField
  | ForeignKey
  | ManyToManyField
  | BinaryField
deriving Repr, BEq, DecidableEq

/-- Python's `self.__class__.__name__` of each adapter class. -/
def FieldCls.clsName : FieldCls → String
  | .Field => "Field"
  | .IntegerField => "IntegerField"
  | .PositiveIntegerField => "PositiveIntegerField"
  | .PositiveSmallIntegerField => "PositiveSmallIntegerField"
  | .BigIntegerField => "BigIntegerField"
  | .AutoField => "AutoField"
  | .DecimalField => "DecimalField"
  | .FloatField => "FloatField"
  | .BooleanField => "BooleanField"
  | .NullBooleanField => "NullBooleanField"
  | .CharField => "CharField"
  | .SlugField => "SlugField"
  | .CommaSeparatedIntegerField => "CommaSeparatedIntegerField"
  | .EmailField => "EmailField"
  | .URLField => "URLField"
  | .TextField => "TextField"
  | .FileField => "FileField"
  | .FilePathField => "FilePathField"
  | .ImageField => "ImageField"
  | .DateField => "DateField"
  | .DateTimeField => "DateTimeField"
  | .TimeField => "TimeField"
  | .IPAddressField => "IPAddressField"
  | .GenericIPAddressField => "GenericIPAddressField"
  | .ForeignKey => "ForeignKey"
  | .ManyToManyField => "ManyToManyField"
  | .BinaryField => "BinaryField"

/-- Python's `to_json` of each adapter class (`fields.py`), with Python's method
resolution applied by hand:
* `Field` (inherited by the char/text/file/IP/binary classes):
  `str(field_value) if field_value else None`;
* `IntegerField` and its subclasses: `int(field_value) if field_value else None`;
* `DecimalField`, `FloatField`: `float(field_value) if field_value else None`;
* `BooleanField`: `bool(field_value)`;
* `NullBooleanField`: `bool(field_value) if field_value else None`;
* `DateField` and subclasses: `field_value.isoformat() if field_value else None`
  (`AttributeError` on a truthy non-date);
* `ForeignKey`, `ManyToManyField`: `int(field_value.pk) if field_value else None`
  (`AttributeError` on a truthy value with no `pk`). -/
def toJson (c : FieldCls) (v : PyVal) : Except PyExc PyVal :=
  match c with
  | .IntegerField | .PositiveIntegerField | .PositiveSmallIntegerField
  | .BigIntegerField | .AutoField =>
    if truthy v then pyInt v else .ok .none
  | .DecimalField | .FloatField =>
    if truthy v then pyFloat v else .ok .none
  | .BooleanField => .ok (.bool (truthy v))
  | .NullBooleanField =>
    if truthy v then .ok (.bool (truthy v)) else .ok .none
  | .DateField | .DateTimeField | .TimeField =>
    if truthy v then
      match v with
      | .date iso => .ok (.str iso)
      | _ => .error .attributeError
    else .ok .none
  | .ForeignKey | .ManyToManyField =>
    if truthy v then
      match v with
      | .obj pk => .ok (.int pk)
      | _ => .error .attributeError
    else .ok .none
  | _ =>
    if truthy v then .ok (.str (pyStr v)) else .ok .none

/-- A field adapter instance: the attributes `Field.__init__` (and the
`ForeignKey.__init__` extension) copies out of the Django field.
`default = Option.none` stands for the `NOT_PROVIDED` sentinel. -/
structure Adapter where
  cls : FieldCls
  name : String
  null : Bool
  blank : Bool
  editable : Bool
  help_text : String
  primary_key : Bool
  unique : Bool
  default : Option PyVal
  related_model_name : String := ""
  related_name : String := ""
  to_fields : List String := []
deriving Repr, BEq

/-- The extra schema entries `ForeignKey.schema_info` adds via
`schema.update({...})`; empty for every other class.  The three keys are
fresh relative to the base schema, so the update appends them in literal
order. -/
def Adapter.fkExtras (a : Adapter) : List (String × PyVal) :=
  match a.cls with
  | .ForeignKey | .ManyToManyField =>
    [("related_model", .str a.related_model_name),
     ("related_name", .str a.related_name),
     ("to_fields", .list (a.to_fields.map PyVal.str))]
  | _ => []

/-- Python's `Field.schema_info` (`fields.py` lines 40-61) plus the `ForeignKey`
override: the eight fixed entries in insertion order, then `default`
(only when the field declares one, i.e. `self.default != NOT_PROVIDED`),
serialised through `to_json` with a `str` fallback on `TypeError` /
`AttributeError`, then the foreign-key extras. -/
def Adapter.schema_info (a : Adapter) : Except PyExc (List (String × PyVal)) :=
  let base : List (String × PyVal) :=
    [("name", .str a.name), ("type", .str a.cls.clsName), ("null", .bool a.null),
     ("blank", .bool a.blank), ("editable", .bool a.editable),
     ("help_text", .str a.help_text), ("primary_key", .bool a.primary_key),
     ("unique", .bool a.unique)]
  match a.default with
  | Option.none => .ok (base ++ a.fkExtras)
  | some d =>
    match toJson a.cls d with
    | .ok j => .ok (base ++ [("default", j)] ++ a.fkExtras)
    | .error .typeError => .ok (base ++ [("default", .str (pyStr d))] ++ a.fkExtras)
    | .error .attributeError => .ok (base ++ [("default", .str (pyStr d))] ++ a.fkExtras)
    | .error e => .error e

/-- Python `s.split('__')`: left-to-right scan, a two-underscore separator
cuts the string; n separators yield n+1 parts (possibly empty). -/
def splitDunder : List Char → List (List Char)
  | [] => [[]]
  | '_' :: '_' :: rest => [] :: splitDunder rest
  | c :: rest =>
    match splitDunder rest with
    | [] => [[c]]
    | h :: t => (c :: h) :: t

/-- Python's `param.split('__')` on strings. -/
def pySplitDunder (s : String) : List String :=
  (splitDunder s.data).map (fun l => ⟨l⟩)

/-- A processed query value: either the single extracted value
(`value = value[0]`) or the value list kept whole (`value = list(value)`). -/
inductive PValue where
  | single (s : String)
  | multi (l : List String)
deriving Repr, BEq, DecidableEq

/-- The lookup-type allow-list of `Field.process_param` (`fields.py`
lines 97-102; the source set literal names `range` twice, which a set
collapses). -/
def lookupAllowed : List String :=
  ["iexact", "contains", "icontains", "startswith", "istartswith",
   "endswith", "iendswith", "month", "day", "week_day", "hour",
   "minute", "second", "isnull", "search", "regex", "iregex", "exact",
   "gt", "gte", "lt", "lte", "range", "in", "year"]

/-- Python's `Field.process_param` (`fields.py` lines 74-119): split the parameter on
`'__'`, default the lookup to `exact`, reject three or more segments and
unknown lookups with a 400 `RESTError`, extract the single value for
non-list lookups (400 if more than one was supplied; Python's `value[0]`
raises `IndexError` on an empty list), keep the list whole for `range`
and `in`, and return the original parameter with the processed value. -/
def Adapter.process_param (a : Adapter) (param : String) (value : List String) :
    Except PyExc (String × PValue) :=
  let pl0 := pySplitDunder param
  let pl := if pl0.length = 1 then pl0 ++ ["exact"] else pl0
  if 2 < pl.length then
    .error (.restError 400
      (.dict [("Error", .str ("Field " ++ a.name ++ " has no relations"))]))
  else
    let lookupType := pl.getD 1 ""
    if !(lookupAllowed.contains lookupType) then
      .error (.restError 400
        (.dict [("Error", .str (lookupType ++ " is not a valid lookup type for field "
          ++ pl.getD 0 ""))]))
    else if !(["range", "in"].contains lookupType) then
      if 1 < value.length then
        .error (.restError 400
          (.dict [("Error", .str (lookupType ++ " only takes a single value."))]))
      else
        match value with
        | v :: _ => .ok (param, .single v)
        | [] => .error .indexError
    else .ok (param, .multi value)

/-- Python `key.startswith(p)`. -/
def pyStartsWith (s p : String) : Bool :=
  p.data.isPrefixOf s.data

/-- Python `key[n:]`. -/
def pyDrop (s : String) (n : Nat) : String :=
  ⟨s.data.drop n⟩

/-- Python dict assignment `d[k] = v` on an insertion-ordered association
list: replace in place when the key exists, append otherwise. -/
def dinsert {α : Type} (d : List (String × α)) (k : String) (v : α) :
    List (String × α) :=
  if d.any (fun p => p.1 = k) then
    d.map (fun p => if p.1 = k then (k, v) else p)
  else d ++ [(k, v)]

/-- The three query-parameter buckets of `QueryView` (`views.py`): each is a
per-request dict from stripped key to the key's list of values. -/
structure ParamBuckets where
  system_params : List (String × List String)
  filter_params : List (String × List String)
  exclude_params : List (String × List String)
deriving Repr, BEq

/-- One iteration of the `parse_get_data` loop (`views.py` lines 171-177):
`'__'`-prefixed keys go to the system bucket stripped of two characters,
otherwise `'!'`-prefixed keys go to the exclude bucket stripped of one,
and everything else goes to the filter bucket unchanged. -/
def parseStep (st : ParamBuckets) (kv : String × List String) : ParamBuckets :=
  if pyStartsWith kv.1 "__" then
    { st with system_params := dinsert st.system_params (pyDrop kv.1 2) kv.2 }
  else if pyStartsWith kv.1 "!" then
    { st with exclude_params := dinsert st.exclude_params (pyDrop kv.1 1) kv.2 }
  else
    { st with filter_params := dinsert st.filter_params kv.1 kv.2 }

/-- Python's `QueryView.parse_get_data` (`views.py` lines 156-177), iterating
`get_dict.lists()` (one entry per distinct query-string key, carrying the
key's full value list) over empty buckets. -/
def parse_get_data (input : List (String × List String)) : ParamBuckets :=
  input.foldl parseStep ⟨[], [], []⟩

/-- The data `ForeignKey.__init__` reads off `field.related`. -/
structure FKInfo where
  parent_model_name : String
  accessor_name : String
  to_fields : List String
deriving Repr, BEq

/-- A Django model field as seen by the adapter layer: its class name
(used for `getattr` dispatch) and the declarative attributes the adapters
copy.  `default = Option.none` is the `NOT_PROVIDED` sentinel;
`related` is only populated on relation fields. -/
structure DjField where
  clsName : String
  name : String
  null : Bool := false
  blank : Bool := false
  editable : Bool := true
  help_text : String := ""
  primary_key : Bool := false
  unique : Bool := false
  default : Option PyVal := Option.none
  related : Option FKInfo := Option.none
deriving Repr, BEq

/-- A Django model: `_meta.app_label`, `_meta.model_name`,
`_meta.abstract` and `_meta.fields`. -/
structure DjModel where
  app_label : String
  model_name : String
  abstract : Bool := false
  fields : List DjField
deriving Repr, BEq

/-- Python's `getattr(field_module, class_name)`: the classes the fields module
defines, by name; `Option.none` when the module has no such attribute. -/
def lookupFieldCls : String → Option FieldCls
  | "Field" => some .Field
  | "IntegerField" => some .IntegerField
  | "PositiveIntegerField" => some .PositiveIntegerField
  | "PositiveSmallIntegerField" => some .PositiveSmallIntegerField
  | "BigIntegerField" => some .BigIntegerField
  | "AutoField" => some .AutoField
  | "DecimalField" => some .DecimalField
  | "FloatField" => some .FloatField
  | "BooleanField" => some .BooleanField
  | "NullBooleanField" => some .NullBooleanField
  | "CharField" => some .CharField
  | "SlugField" => some .SlugField
  | "CommaSeparatedIntegerField" => some .CommaSeparatedIntegerField
  | "EmailField" => some .EmailField
  | "URLField" => some .URLField
  | "TextField" => some .TextField
  | "FileField" => some .FileField
  | "FilePathField" => some .FilePathField
  | "ImageField" => some .ImageField
  | "DateField" => some .DateField
  | "DateTimeField" => some .DateTimeField
  | "TimeField" => some .TimeField
  | "IPAddressField" => some .IPAddressField
  | "GenericIPAddressField" => some .GenericIPAddressField
  | "ForeignKey" => some .ForeignKey
  | "ManyToManyField" => some .ManyToManyField
  | "BinaryField" => some .BinaryField
  | _ => Option.none

/-- Python's `getattr(field, x.__class__.__name__)(x)`: dispatch on the field's
class name (`AttributeError` when the module has no matching class), then
run the adapter constructor; the `ForeignKey` constructor additionally
dereferences `field.related`. -/
def mkAdapter (f : DjField) : Except PyExc Adapter :=
  match lookupFieldCls f.clsName with
  | Option.none => .error .attributeError
  | some c =>
    match c with
    | .ForeignKey | .ManyToManyField =>
      match f.related with
      | some r =>
        .ok { cls := c, name := f.name, null := f.null, blank := f.blank,
              editable := f.editable, help_text := f.help_text,
              primary_key := f.primary_key, unique := f.unique,
              default := f.default, related_model_name := r.parent_model_name,
              related_name := r.accessor_name, to_fields := r.to_fields }
      | Option.none => .error .attributeError
    | _ =>
      .ok { cls := c, name := f.name, null := f.null, blank := f.blank,
            editable := f.editable, help_text := f.help_text,
            primary_key := f.primary_key, unique := f.unique,
            default := f.default }

/-- The list comprehension of `ModelResource.get_fields` (`resource.py`
lines 78-85): adapt each model field in order, stopping at the first
raised exception. -/
def get_fields_list : List DjField → Except PyExc (List Adapter)
  | [] => .ok []
  | f :: rest =>
    match mkAdapter f with
    | .error e => .error e
    | .ok a =>
      match get_fields_list rest with
      | .error e => .error e
      | .ok l => .ok (a :: l)

/-- Python's `ModelResource.get_fields` over a model's `_meta.fields`. -/
def get_fields (m : DjModel) : Except PyExc (List Adapter) :=
  get_fields_list m.fields

/-- Python's `ModelResource.get_fields_dict` (`resource.py` lines 87-93):
`{x.name: x for x in self.fields}`. -/
def get_fields_dict (fields : List Adapter) : List (String × Adapter) :=
  fields.foldl (fun d a => dinsert d a.name a) []

/-- The loop of `SchemaView.get_content_data` (`views.py` lines 350-360):
`schema[f.name] = f.schema_info()` over an empty ordered dict. -/
def schema_loop : List Adapter → List (String × PyVal) →
    Except PyExc (List (String × PyVal))
  | [], schema => .ok schema
  | f :: rest, schema =>
    match f.schema_info with
    | .error e => .error e
    | .ok si => schema_loop rest (dinsert schema f.name (.dict si))

/-- Python's `SchemaView.get_content_data`: the schema dict and status 200. -/
def schema_get_content_data (fields : List Adapter) :
    Except PyExc (List (String × PyVal) × Nat) :=
  match schema_loop fields [] with
  | .error e => .error e
  | .ok schema => .ok (schema, 200)

/-- Symbolic queryset: the base queryset of a model
(`model.objects.all()`) plus the ORM calls the views issue.  Execution of
the queryset is Django's responsibility and stays outside the embedding. -/
inductive QS where
  | all (app model : String)
  | filter (q : QS) (param : String) (v : PValue)
  | exclude (q : QS) (param : String) (v : PValue)
  | orderBy (q : QS) (fields : List String)
  | valuesList (q : QS) (fields : List String)
deriving Repr, BEq

/-- A Django model form (`modelform_factory(model)` output), kept
abstract: validation, error rendering and saving are framework code. -/
structure DjForm where
  is_valid : List (String × PyVal) → Bool
  errors : List (String × PyVal) → PyVal
  save : List (String × PyVal) → List (String × PyVal)

/-- Python's `ModelResource.get_url_re_base` (`resource.py` lines 54-58). -/
def get_url_re_base (app model_name : String) : String :=
  "^" ++ app ++ "/" ++ model_name ++ "/"

/-- A `ModelResource` instance: every attribute `__init__`
(`resource.py` lines 20-52) sets, except the two `as_view` closures
(`query_view`, `schema_view`), which close over `self` and are
represented at the URL-table level by the resource itself. -/
structure ModelResource where
  model : DjModel
  app : String
  model_name : String
  api_name : String
  queryset : QS
  form : DjForm
  fields : List Adapter
  fields_dict : List (String × Adapter)
  query_url_re : String
  query_reverse_name : String
  schema_url_re : String
  schema_reverse_name : String
  pk_url_re : String
  pk_reverse_name : String
  new_url_re : String
  new_reverse_name : String

/-- Python's `ModelResource.__init__(self, model, api)`: reads the meta data, builds
queryset, form, field adapters, field dict and the URL/reverse-name
strings.  `mff` abstracts Django's `modelform_factory`.  An exception from
`get_fields` aborts construction. -/
def mkModelResource (m : DjModel) (apiName : String)
    (mff : DjModel → DjForm) : Except PyExc ModelResource :=
  match get_fields m with
  | .error e => .error e
  | .ok fl =>
    .ok { model := m
          app := m.app_label
          model_name := m.model_name
          api_name := apiName
          queryset := QS.all m.app_label m.model_name
          form := mff m
          fields := fl
          fields_dict := get_fields_dict fl
          query_url_re := get_url_re_base m.app_label m.model_name ++ "$"
          query_reverse_name :=
            "snooze_" ++ m.app_label ++ "_" ++ m.model_name ++ "_query"
          schema_url_re := get_url_re_base m.app_label m.model_name ++ "schema/$"
          schema_reverse_name :=
            "snooze_" ++ m.app_label ++ "_" ++ m.model_name ++ "_schema"
          pk_url_re :=
            get_url_re_base m.app_label m.model_name ++ "(?P<pk>\\d+)/$"
          pk_reverse_name :=
            "snooze_" ++ m.app_label ++ "_" ++ m.model_name ++ "_pk"
          new_url_re := get_url_re_base m.app_label m.model_name ++ "new/$"
          new_reverse_name :=
            "snooze_" ++ m.app_label ++ "_" ++ m.model_name ++ "_new" }

/-- An argument of a Python call, as used at the
`ModelResource(...)` call sites. -/
inductive CallArg where
  | model (m : DjModel)
  | api (name : String)

/-- The call protocol of `ModelResource(...)`: `__init__(self, model, api)`
(`resource.py` line 20) requires exactly a model and an api argument; any
other argument list raises `TypeError` before the body runs. -/
def modelResourceCall (mff : DjModel → DjForm) (args : List CallArg) :
    Except PyExc ModelResource :=
  match args with
  | [.model m, .api a] => mkModelResource m a mff
  | _ => .error .typeError

/-- The loop of `API.discover_models` (`apis.py` lines 21-32): iterate the
model registry once, skip abstract models, construct a resource with
`ModelResource(model)` (line 31 passes only the model) and append it to
`self._resources[app_label]`. -/
def discover_models_go (mff : DjModel → DjForm) :
    List DjModel → List (String × List ModelResource) →
    Except PyExc (List (String × List ModelResource))
  | [], res => .ok res
  | m :: rest, res =>
    if m.abstract then discover_models_go mff rest res
    else
      match modelResourceCall mff [.model m] with
      | .error e => .error e
      | .ok r =>
        discover_models_go mff rest
          (dinsert res m.app_label (((res.lookup m.app_label).getD []) ++ [r]))

/-- Python's `API.discover_models` starting from an empty `_resources` registry. -/
def discover_models (mff : DjModel → DjForm) (registry : List DjModel) :
    Except PyExc (List (String × List ModelResource)) :=
  discover_models_go mff registry []

/-- A view bound into the URL table. -/
inductive ViewBinding where
  | index
  | queryView (r : ModelResource)
  | schemaView (r : ModelResource)
  | pkView (r : ModelResource)
  | newView (r : ModelResource)

/-- Looking up a view-valued attribute on a `ModelResource` instance:
`__init__` sets `query_view` and `schema_view`; `pk_view` and `new_view`
are methods of the class; any other name raises `AttributeError`. -/
def resourceViewAttr (r : ModelResource) (name : String) :
    Except PyExc ViewBinding :=
  if name = "query_view" then .ok (.queryView r)
  else if name = "schema_view" then .ok (.schemaView r)
  else if name = "pk_view" then .ok (.pkView r)
  else if name = "new_view" then .ok (.newView r)
  else .error .attributeError

/-- The four `url(...)` entries `API.get_urls` emits per resource
(`apis.py` lines 47-60): regex, view and reverse name.  The query entry
reads `resource.view` (line 49). -/
def get_urls_resource (r : ModelResource) :
    Except PyExc (List (String × ViewBinding × String)) :=
  match resourceViewAttr r "view" with
  | .error e => .error e
  | .ok v1 =>
    match resourceViewAttr r "schema_view" with
    | .error e => .error e
    | .ok v2 =>
      match resourceViewAttr r "pk_view" with
      | .error e => .error e
      | .ok v3 =>
        match resourceViewAttr r "new_view" with
        | .error e => .error e
        | .ok v4 =>
          .ok [(r.query_url_re, v1, r.query_reverse_name),
               (r.schema_url_re, v2, r.schema_reverse_name),
               (r.pk_url_re, v3, r.pk_reverse_name),
               (r.new_url_re, v4, r.new_reverse_name)]

/-- The inner loop of `API.get_urls` over one app's resources. -/
def get_urls_list : List ModelResource →
    Except PyExc (List (String × ViewBinding × String))
  | [] => .ok []
  | r :: rest =>
    match get_urls_resource r with
    | .error e => .error e
    | .ok es =>
      match get_urls_list rest with
      | .error e => .error e
      | .ok es2 => .ok (es ++ es2)

/-- The outer loop of `API.get_urls` over `_resources.items()`. -/
def get_urls_apps : List (String × List ModelResource) →
    Except PyExc (List (String × ViewBinding × String))
  | [] => .ok []
  | (_, rs) :: rest =>
    match get_urls_list rs with
    | .error e => .error e
    | .ok es =>
      match get_urls_apps rest with
      | .error e => .error e
      | .ok es2 => .ok (es ++ es2)

/-- Python's `API.get_urls` (`apis.py` lines 34-62): the index entry at the root
followed by four entries per registered resource. -/
def get_urls (resources : List (String × List ModelResource)) :
    Except PyExc (List (String × ViewBinding × String)) :=
  match get_urls_apps resources with
  | .error e => .error e
  | .ok es => .ok (("^$", ViewBinding.index, "index") :: es)

/-- Python's `QueryView._check_valid_field` (`views.py` lines 330-339):
`field in self.resource.fields_dict`. -/
def check_valid_field (r : ModelResource) (f : String) : Bool :=
  (r.fields_dict.lookup f).isSome

/-- Python `s.lstrip(c)`: drop every leading occurrence of `c`. -/
def pyLstrip (s : String) (c : Char) : String :=
  ⟨s.data.dropWhile (fun x => x = c)⟩

/-- Python `s.split(',')`. -/
def pySplitComma (s : String) : List String :=
  (splitChar ',' s.data).map (fun l => ⟨l⟩)

/-- The error-dict comprehension shared by `QueryView.order_by` and
`QueryView.values_list`: one message per field failing the validity
check `p`. -/
def collect_errors (p : String → Bool) (msg : String → PyVal)
    (fl : List String) : List (String × PyVal) :=
  fl.foldl (fun d f => if !(p f) then dinsert d f (msg f) else d) []

/-- Python's `QueryView.order_by` (`views.py` lines 239-262): reject more than one
query-string value, split the single value on commas, collect an error per
field whose `lstrip('-')`-stripped name is not a resource field, raise 400
when any, else order the queryset by the listed fields. -/
def order_by_view (r : ModelResource) (q : QS) (fields : List String) :
    Except PyExc QS :=
  if 1 < fields.length then
    .error (.restError 400 (.str "Order_by needs a single comma separated string."))
  else
    match fields with
    | [] => .error .indexError
    | f0 :: _ =>
      let fl := pySplitComma f0
      let errs := collect_errors (fun f => check_valid_field r (pyLstrip f '-'))
        (fun f => .str ("Field " ++ f ++ " is not orderable.")) fl
      if !errs.isEmpty then
        .error (.restError 400 (.dict [("Errors", .dict errs)]))
      else .ok (.orderBy q fl)

/-- Python's `QueryView.values_list` (`views.py` lines 264-290): like `order_by`
but without dash stripping; on success also records the selected fields
in `self.render_values_list`. -/
def values_list_view (r : ModelResource) (q : QS) (fields : List String) :
    Except PyExc (QS × List String) :=
  if 1 < fields.length then
    .error (.restError 400 (.str "values_list needs a single comma seperated string."))
  else
    match fields with
    | [] => .error .indexError
    | f0 :: _ =>
      let fl := pySplitComma f0
      let errs := collect_errors (fun f => check_valid_field r f)
        (fun f => .str ("Field " ++ f ++ " is not listable.")) fl
      if !errs.isEmpty then
        .error (.restError 400 (.dict [("Errors", .dict errs)]))
      else .ok (.valuesList q fl, fl)

/-- The `values_list` half of `QueryView.misc_alter_queryset`. -/
def misc_values_part (r : ModelResource) (sys : List (String × List String))
    (q : QS) : Except PyExc (QS × Option (List String)) :=
  match sys.lookup "values_list" with
  | some v =>
    match values_list_view r q v with
    | .error e => .error e
    | .ok (q2, fl) => .ok (q2, some fl)
  | Option.none => .ok (q, Option.none)

/-- Python's `QueryView.misc_alter_queryset` (`views.py` lines 221-237):
`render_values_list` starts as `False` (`Option.none`), `order_by` is
applied first, then `values_list`. -/
def misc_alter_queryset (r : ModelResource) (sys : List (String × List String))
    (q : QS) : Except PyExc (QS × Option (List String)) :=
  match sys.lookup "order_by" with
  | some v =>
    match order_by_view r q v with
    | .error e => .error e
    | .ok q1 => misc_values_part r sys q1
  | Option.none => misc_values_part r sys q

/-- Python's `QueryView._process_param` (`views.py` lines 314-328): check the field
part before the first `'__'` exists, then delegate to the field adapter. -/
def process_param_view (r : ModelResource) (param : String)
    (value : List String) : Except PyExc (String × PValue) :=
  let field_name := (pySplitDunder param).getD 0 ""
  if !(check_valid_field r field_name) then
    .error (.restError 400
      (.dict [("Error", .str ("Field " ++ field_name ++ " is not queryable"))]))
  else
    match r.fields_dict.lookup field_name with
    | some a => a.process_param param value
    | Option.none => .error .keyError

/-- Python's `QueryView.filter_queryset` (`views.py` lines 193-205). -/
def filter_queryset (r : ModelResource) :
    List (String × List String) → QS → Except PyExc QS
  | [], q => .ok q
  | (param, v) :: rest, q =>
    match process_param_view r param v with
    | .error e => .error e
    | .ok (p2, v2) => filter_queryset r rest (.filter q p2 v2)

/-- Python's `QueryView.exclude_queryset` (`views.py` lines 207-219). -/
def exclude_queryset (r : ModelResource) :
    List (String × List String) → QS → Except PyExc QS
  | [], q => .ok q
  | (param, v) :: rest, q =>
    match process_param_view r param v with
    | .error e => .error e
    | .ok (p2, v2) => exclude_queryset r rest (.exclude q p2 v2)

/-- Python's `QueryView.construct_queryset` (`views.py` lines 179-191). -/
def construct_queryset (r : ModelResource) (st : ParamBuckets) :
    Except PyExc (QS × Option (List String)) :=
  match filter_queryset r st.filter_params r.queryset with
  | .error e => .error e
  | .ok q1 =>
    match exclude_queryset r st.exclude_params q1 with
    | .error e => .error e
    | .ok q2 => misc_alter_queryset r st.system_params q2

/-- A row produced by evaluating a queryset: a model instance (attribute
map) normally, a tuple under `values_list`. -/
inductive QRow where
  | obj (attrs : List (String × PyVal))
  | tup (vals : List PyVal)

/-- The loop of `ModelResource.obj_to_json` (`resource.py` lines 177-189):
`obj_dict[field.name] = field.to_json(getattr(obj, field.name))`. -/
def obj_to_json_loop (attrs : List (String × PyVal)) :
    List Adapter → List (String × PyVal) →
    Except PyExc (List (String × PyVal))
  | [], d => .ok d
  | a :: rest, d =>
    match attrs.lookup a.name with
    | Option.none => .error .attributeError
    | some v =>
      match toJson a.cls v with
      | .error e => .error e
      | .ok j => obj_to_json_loop attrs rest (dinsert d a.name j)

/-- Python's `ModelResource.obj_to_json`: serialise a model instance field by
field (`TypeError`-style failure on a tuple row, which has no attributes). -/
def obj_to_json (r : ModelResource) (row : QRow) : Except PyExc PyVal :=
  match row with
  | .obj attrs =>
    match obj_to_json_loop attrs r.fields [] with
    | .error e => .error e
    | .ok d => .ok (.dict d)
  | .tup _ => .error .attributeError

/-- Serialise the selected fields of one `values_list` tuple through the
corresponding adapters. -/
def tuple_fields_loop (r : ModelResource) :
    List (String × PyVal) → List (String × PyVal) →
    Except PyExc (List (String × PyVal))
  | [], d => .ok d
  | (f, v) :: rest, d =>
    match r.fields_dict.lookup f with
    | Option.none => .error .keyError
    | some a =>
      match toJson a.cls v with
      | .error e => .error e
      | .ok j => tuple_fields_loop r rest (dinsert d f j)

/-- Modelled from the spec: `ModelResource.tuple_to_json` is called by
`QueryView.get_content_data` (`views.py` line 305) but its definition is
missing from the source tree.  Per the spec, with `values_list` active
each result row of the response is rendered through "the resource's
tuple-to-JSON conversion of the selected fields": each selected field
name is paired with the corresponding tuple element, serialised by that
field's adapter. -/
def tuple_to_json (r : ModelResource) (row : QRow) (fields : List String) :
    Except PyExc PyVal :=
  match row with
  | .tup vals =>
    match tuple_fields_loop r (fields.zip vals) [] with
    | .error e => .error e
    | .ok d => .ok (.dict d)
  | .obj _ => .error .typeError

/-- The body of the object loop of `QueryView.get_content_data`
(`views.py` lines 303-309): render one row through `tuple_to_json` when
`render_values_list` is set, through `obj_to_json` otherwise. -/
def render_row (r : ModelResource) (rvl : Option (List String))
    (row : QRow) : Except PyExc PyVal :=
  match rvl with
  | some fl => tuple_to_json r row fl
  | Option.none => obj_to_json r row

/-- The object loop of `QueryView.get_content_data` (`views.py` lines
299-311). -/
def render_rows (r : ModelResource) (rvl : Option (List String)) :
    List QRow → Except PyExc (List PyVal)
  | [] => .ok []
  | row :: rest =>
    match render_row r rvl row with
    | .error e => .error e
    | .ok j =>
      match render_rows r rvl rest with
      | .error e => .error e
      | .ok js => .ok (j :: js)

/-- Python's `QueryView.get_content_data`: construct the queryset from the parsed
buckets, evaluate it through the ORM (`run`), render every row, and
return the object list with status 200. -/
def query_get_content_data (r : ModelResource) (run : QS → List QRow)
    (st : ParamBuckets) : Except PyExc (PyVal × Nat) :=
  match construct_queryset r st with
  | .error e => .error e
  | .ok (q, rvl) =>
    match render_rows r rvl (run q) with
    | .error e => .error e
    | .ok objs => .ok (.dict [("objects", .list objs)], 200)

/-- Python's `QueryView.get` (`views.py` lines 144-154): parse the query string
into the view instance's buckets, then produce the content.  The result
carries the (unchanged) resource and the view-instance state so that the
frame claim is expressible. -/
def query_view_get (r : ModelResource) (run : QS → List QRow)
    (getD : List (String × List String)) :
    Except PyExc (PyVal × Nat) × ModelResource × ParamBuckets :=
  let st := parse_get_data getD
  (query_get_content_data r run st, r, st)

/-- Python's `SchemaView.get` end to end. -/
def schema_view_get (r : ModelResource) :
    Except PyExc (List (String × PyVal) × Nat) × ModelResource :=
  (schema_get_content_data r.fields, r)

/-- Python's `ObjectView.get_content_data` / `ModelResource.pk_view`: fetch one
object by primary key through the ORM (`fetch`), 404 when absent. -/
def object_view_get (r : ModelResource)
    (fetch : QS → Int → Option (List (String × PyVal))) (pk : Int) :
    Except PyExc (PyVal × Nat) × ModelResource :=
  (match fetch r.queryset pk with
   | Option.none => .ok (.none, 404)
   | some attrs =>
     match obj_to_json r (.obj attrs) with
     | .error e => .error e
     | .ok j => .ok (j, 200), r)

/-- An HTTP request as `ModelResource.new_view` sees it: the method, the
`CONTENT_TYPE` meta entry when the header was sent, and the JSON body
(`Option.none` for a body `json.loads` rejects). -/
structure PyRequest where
  method : String
  content_type : Option String
  body : Option (List (String × PyVal))

/-- Python `needle in hay` on strings (substring containment). -/
def containsSub (hay needle : List Char) : Bool :=
  match hay with
  | [] => needle.isEmpty
  | _ :: t => needle.isPrefixOf hay || containsSub t needle

/-- Python `'application/json' in request.META['CONTENT_TYPE']`. -/
def pyIn (needle hay : String) : Bool :=
  containsSub hay.data needle.data

/-- Python's `ModelResource.new_view` (`resource.py` lines 191-216): accept only a
POST whose `CONTENT_TYPE` contains `application/json` (a missing header
raises `KeyError` after the short-circuiting method check), feed the JSON
body to the model form, save and answer 201 on success, answer 400 with
the form's errors on validation failure, and answer 400 `Bad request`
otherwise.  The saved-object list models the database effect. -/
def new_view (r : ModelResource) (req : PyRequest)
    (db : List (List (String × PyVal))) :
    Except PyExc ((PyVal × Nat) × List (List (String × PyVal))) :=
  if req.method = "POST" then
    match req.content_type with
    | Option.none => .error .keyError
    | some ct =>
      if pyIn "application/json" ct then
        match req.body with
        | Option.none => .error .valueError
        | some data =>
          if r.form.is_valid data then
            .ok ((.dict [("Status", .str "success")], 201), db ++ [r.form.save data])
          else
            .ok ((r.form.errors data, 400), db)
      else .ok ((.dict [("Status", .str "Bad request")], 400), db)
  else .ok ((.dict [("Status", .str "Bad request")], 400), db)

/-- Python's `NewObjectView` dispatch at the state level: the response outcome, the
unchanged resource and the database after the request. -/
def new_view_handler (r : ModelResource) (req : PyRequest)
    (db : List (List (String × PyVal))) :
    Except PyExc (PyVal × Nat) × ModelResource × List (List (String × PyVal)) :=
  match new_view r req db with
  | .error e => (.error e, r, db)
  | .ok (out, db2) => (.ok out, r, db2)

/-- The `tests` application's `Simple` model (`tests/models.py`): an auto
primary key plus an integer field and a char field with default
`'spam'`. -/
def simpleModel : DjModel :=
  { app_label := "tests", model_name := "simple",
    fields :=
      [{ clsName := "AutoField", name := "id", blank := true,
         primary_key := true, unique := true },
       { clsName := "IntegerField", name := "one" },
       { clsName := "CharField", name := "two",
         default := some (.str "spam") }] }

/-- The `tests` application's `Abstract` model (`tests/models.py`),
marked abstract in its meta. -/
def abstractModel : DjModel :=
  { app_label := "tests", model_name := "abstract", abstract := true,
    fields :=
      [{ clsName := "IntegerField", name := "one" },
       { clsName := "CharField", name := "two",
         default := some (.str "eggs") }] }

/-- A concrete stand-in for the model form of `Simple`: valid iff the
field `one` is supplied. -/
def testForm : DjForm :=
  { is_valid := fun d => (d.lookup "one").isSome,
    errors := fun _ => .dict [("one", .list [.str "This field is required."])],
    save := fun d => d }

/-- Placeholder resource (only used as an impossible fallback). -/
def fallbackResource : ModelResource :=
  { model := { app_label := "", model_name := "", fields := [] },
    app := "", model_name := "", api_name := "", queryset := .all "" "",
    form := testForm, fields := [], fields_dict := [],
    query_url_re := "", query_reverse_name := "", schema_url_re := "",
    schema_reverse_name := "", pk_url_re := "", pk_reverse_name := "",
    new_url_re := "", new_reverse_name := "" }

/-- The resource the `Simple` model yields. -/
def simpleResource : ModelResource :=
  match mkModelResource simpleModel "django_snooze" (fun _ => testForm) with
  | .ok r => r
  | .error _ => fallbackResource

/-! ## Theorems -/

/-- Python's `s.split('__')` never yields an empty list of parts. -/
theorem splitDunder_ne_nil (l : List Char) : splitDunder l ≠ [] := by
  unfold splitDunder
  split
  · simp
  · simp
  · split <;> simp

theorem string_data_inj {s s' : String} (h : s.data = s'.data) : s = s' := by
  cases s
  cases s'
  exact congrArg String.mk h

theorem isPrefixOf_pair (a b : Char) (l : List Char) :
    ([a, b].isPrefixOf l) = true ↔ ∃ t, l = a :: b :: t := by
  cases l with
  | nil => simp [List.isPrefixOf]
  | cons c cs =>
    cases cs with
    | nil => simp [List.isPrefixOf]
    | cons c' cs' =>
      show ((a == c) && ((b == c') && ([].isPrefixOf cs'))) = true ↔ _
      simp only [List.isPrefixOf, Bool.and_eq_true, beq_iff_eq, and_true]
      constructor
      · rintro ⟨h1, h2⟩
        exact ⟨cs', by rw [h1, h2]⟩
      · rintro ⟨t, ht⟩
        injection ht with ht1 ht2
        injection ht2 with ht2 _
        exact ⟨ht1.symm, ht2.symm⟩

theorem isPrefixOf_one (a : Char) (l : List Char) :
    ([a].isPrefixOf l) = true ↔ ∃ t, l = a :: t := by
  cases l with
  | nil => simp [List.isPrefixOf]
  | cons c cs =>
    show ((a == c) && ([].isPrefixOf cs)) = true ↔ _
    simp only [List.isPrefixOf, Bool.and_eq_true, beq_iff_eq, and_true]
    constructor
    · intro h1
      exact ⟨cs, by rw [h1]⟩
    · rintro ⟨t, ht⟩
      injection ht with ht1 _
      exact ht1.symm

theorem pyStartsWith_dunder (s : String) :
    pyStartsWith s "__" = true ↔ ∃ t, s.data = '_' :: '_' :: t := by
  unfold pyStartsWith
  have hd : "__".data = ['_', '_'] := rfl
  rw [hd]
  exact isPrefixOf_pair '_' '_' s.data

theorem pyStartsWith_bang (s : String) :
    pyStartsWith s "!" = true ↔ ∃ t, s.data = '!' :: t := by
  unfold pyStartsWith
  have hd : "!".data = ['!'] := rfl
  rw [hd]
  exact isPrefixOf_one '!' s.data

theorem pyDrop_dunder_inj {s s' : String}
    (hs : pyStartsWith s "__" = true) (hs' : pyStartsWith s' "__" = true)
    (h : pyDrop s 2 = pyDrop s' 2) : s = s' := by
  rcases (pyStartsWith_dunder s).mp hs with ⟨t, ht⟩
  rcases (pyStartsWith_dunder s').mp hs' with ⟨t', ht'⟩
  have hdata : (pyDrop s 2).data = (pyDrop s' 2).data := by rw [h]
  unfold pyDrop at hdata
  simp [ht, ht'] at hdata
  exact string_data_inj (by rw [ht, ht', hdata])

theorem pyDrop_bang_inj {s s' : String}
    (hs : pyStartsWith s "!" = true) (hs' : pyStartsWith s' "!" = true)
    (h : pyDrop s 1 = pyDrop s' 1) : s = s' := by
  rcases (pyStartsWith_bang s).mp hs with ⟨t, ht⟩
  rcases (pyStartsWith_bang s').mp hs' with ⟨t', ht'⟩
  have hdata : (pyDrop s 1).data = (pyDrop s' 1).data := by rw [h]
  unfold pyDrop at hdata
  simp [ht, ht'] at hdata
  exact string_data_inj (by rw [ht, ht', hdata])

/-- A list splits into the parts matching `f`, matching `g` but not `f`,
and matching neither. -/
theorem three_filter_length {α : Type} (f g : α → Bool) (l : List α) :
    (l.filter f).length + (l.filter (fun x => !f x && g x)).length +
      (l.filter (fun x => !f x && !g x)).length = l.length := by
  induction l with
  | nil => simp
  | cons x xs ih =>
    cases hf : f x <;> cases hg : g x <;> simp [hf, hg] <;> omega

/-- Inserting a fresh key into a Python dict appends it. -/
theorem dinsert_fresh {α : Type} (d : List (String × α)) (k : String) (v : α)
    (h : k ∉ d.map Prod.fst) : dinsert d k v = d ++ [(k, v)] := by
  unfold dinsert
  rw [if_neg]
  intro hc
  rcases List.any_eq_true.mp hc with ⟨p, hp, hpk⟩
  exact h (List.mem_map.mpr ⟨p, hp, of_decide_eq_true hpk⟩)

/-- The `parse_get_data` loop over arbitrary starting buckets: as long as
the keys still to process are distinct and their stripped forms are fresh
in the corresponding buckets, the loop appends to each bucket exactly the
filtered, prefix-stripped entries. -/
theorem parse_get_data_go (input : List (String × List String)) :
    ∀ (st : ParamBuckets),
    (input.map Prod.fst).Nodup →
    (∀ p ∈ input, pyStartsWith p.1 "__" = true →
        pyDrop p.1 2 ∉ st.system_params.map Prod.fst) →
    (∀ p ∈ input, pyStartsWith p.1 "__" = false → pyStartsWith p.1 "!" = true →
        pyDrop p.1 1 ∉ st.exclude_params.map Prod.fst) →
    (∀ p ∈ input, pyStartsWith p.1 "__" = false → pyStartsWith p.1 "!" = false →
        p.1 ∉ st.filter_params.map Prod.fst) →
    input.foldl parseStep st =
      ⟨st.system_params ++ (input.filter (fun p => pyStartsWith p.1 "__")).map
          (fun p => (pyDrop p.1 2, p.2)),
       st.filter_params ++ input.filter
          (fun p => !pyStartsWith p.1 "__" && !pyStartsWith p.1 "!"),
       st.exclude_params ++ (input.filter
          (fun p => !pyStartsWith p.1 "__" && pyStartsWith p.1 "!")).map
          (fun p => (pyDrop p.1 1, p.2))⟩ := by
  induction input with
  | nil => intro st _ _ _ _; simp
  | cons p rest ih =>
    intro st hnd hsys hexc hfil
    have hnd' : (rest.map Prod.fst).Nodup := by
      simpa using hnd.of_cons
    have hphd : p.1 ∉ rest.map Prod.fst := by
      have := hnd
      rw [List.map_cons, List.nodup_cons] at this
      exact this.1
    rw [List.foldl_cons]
    by_cases hp2 : pyStartsWith p.1 "__" = true
    · have hfresh := hsys p (List.mem_cons_self p rest) hp2
      have hstep : parseStep st p =
          { st with system_params := st.system_params ++ [(pyDrop p.1 2, p.2)] } := by
        unfold parseStep
        rw [if_pos hp2, dinsert_fresh _ _ _ hfresh]
      rw [hstep]
      rw [ih _ hnd'
        (by
          intro q hq hq2
          simp only [List.map_append, List.mem_append]
          rintro (hin | hin)
          · exact hsys q (List.mem_cons_of_mem p hq) hq2 hin
          · simp at hin
            have : q.1 = p.1 := pyDrop_dunder_inj hq2 hp2 hin
            exact hphd (this ▸ List.mem_map_of_mem Prod.fst hq))
        (by
          intro q hq hq2 hq1
          exact hexc q (List.mem_cons_of_mem p hq) hq2 hq1)
        (by
          intro q hq hq2 hq1
          exact hfil q (List.mem_cons_of_mem p hq) hq2 hq1)]
      simp [hp2]
    · have hp2' : pyStartsWith p.1 "__" = false := by
        cases hb : pyStartsWith p.1 "__"
        · rfl
        · exact absurd hb hp2
      by_cases hp1 : pyStartsWith p.1 "!" = true
      · have hfresh := hexc p (List.mem_cons_self p rest) hp2' hp1
        have hstep : parseStep st p =
            { st with exclude_params := st.exclude_params ++ [(pyDrop p.1 1, p.2)] } := by
          unfold parseStep
          rw [if_neg (by simp [hp2']), if_pos hp1, dinsert_fresh _ _ _ hfresh]
        rw [hstep]
        rw [ih _ hnd'
          (by
            intro q hq hq2
            exact hsys q (List.mem_cons_of_mem p hq) hq2)
          (by
            intro q hq hq2 hq1
            simp only [List.map_append, List.mem_append]
            rintro (hin | hin)
            · exact hexc q (List.mem_cons_of_mem p hq) hq2 hq1 hin
            · simp at hin
              have : q.1 = p.1 := pyDrop_bang_inj hq1 hp1 hin
              exact hphd (this ▸ List.mem_map_of_mem Prod.fst hq))
          (by
            intro q hq hq2 hq1
            exact hfil q (List.mem_cons_of_mem p hq) hq2 hq1)]
        simp [hp2', hp1]
      · have hp1' : pyStartsWith p.1 "!" = false := by
          cases hb : pyStartsWith p.1 "!"
          · rfl
          · exact absurd hb hp1
        have hfresh := hfil p (List.mem_cons_self p rest) hp2' hp1'
        have hstep : parseStep st p =
            { st with filter_params := st.filter_params ++ [p] } := by
          unfold parseStep
          rw [if_neg (by simp [hp2']), if_neg (by simp [hp1']),
            dinsert_fresh _ _ _ hfresh]
        rw [hstep]
        rw [ih _ hnd'
          (by
            intro q hq hq2
            exact hsys q (List.mem_cons_of_mem p hq) hq2)
          (by
            intro q hq hq2 hq1
            exact hexc q (List.mem_cons_of_mem p hq) hq2 hq1)
          (by
            intro q hq hq2 hq1
            simp only [List.map_append, List.mem_append]
            rintro (hin | hin)
            · exact hfil q (List.mem_cons_of_mem p hq) hq2 hq1 hin
            · simp at hin
              exact hphd (hin ▸ List.mem_map_of_mem Prod.fst hq))]
        simp [hp2', hp1']

/-- C1: `parse_get_data` partitions the query-string keys into exactly
three disjoint buckets: `'__'`-prefixed keys land in `system_params`
stripped of the two-character prefix, remaining `'!'`-prefixed keys land in
`exclude_params` stripped of the one-character prefix, and every other key
lands in `filter_params` under its own name; value lists are carried over
unchanged, and every key lands in exactly one bucket (the three bucket
sizes sum to the number of keys). -/
theorem parse_get_data_partitions (input : List (String × List String))
    (hnd : (input.map Prod.fst).Nodup) :
    (parse_get_data input).system_params =
      (input.filter (fun p => pyStartsWith p.1 "__")).map
        (fun p => (pyDrop p.1 2, p.2)) ∧
    (parse_get_data input).exclude_params =
      (input.filter (fun p => !pyStartsWith p.1 "__" && pyStartsWith p.1 "!")).map
        (fun p => (pyDrop p.1 1, p.2)) ∧
    (parse_get_data input).filter_params =
      input.filter (fun p => !pyStartsWith p.1 "__" && !pyStartsWith p.1 "!") ∧
    (parse_get_data input).system_params.length +
      (parse_get_data input).exclude_params.length +
      (parse_get_data input).filter_params.length = input.length := by
  have h := parse_get_data_go input ⟨[], [], []⟩ hnd
    (by intro q _ _; simp) (by intro q _ _ _; simp) (by intro q _ _ _; simp)
  unfold parse_get_data
  rw [h]
  refine ⟨by simp, by simp, by simp, ?_⟩
  simp only [List.nil_append, List.length_map]
  have h3 := three_filter_length (fun p => pyStartsWith p.1 "__")
    (fun p => pyStartsWith p.1 "!") input
  simp only [] at h3
  omega

/-- Witness for C1: a three-key query string with one key of each shape is
partitioned into the three buckets with the prefixes stripped and the
value lists intact. -/
theorem parse_get_data_partitions_witness :
    (parse_get_data [("__order_by", ["one"]), ("!two", ["x"]),
        ("one", ["111", "222"])]).system_params = [("order_by", ["one"])] ∧
    (parse_get_data [("__order_by", ["one"]), ("!two", ["x"]),
        ("one", ["111", "222"])]).exclude_params = [("two", ["x"])] ∧
    (parse_get_data [("__order_by", ["one"]), ("!two", ["x"]),
        ("one", ["111", "222"])]).filter_params = [("one", ["111", "222"])] := by
  have h := parse_get_data_partitions
    [("__order_by", ["one"]), ("!two", ["x"]), ("one", ["111", "222"])]
    (by decide)
  refine ⟨?_, ?_, ?_⟩
  · rw [h.1]; rfl
  · rw [h.2.1]; rfl
  · rw [h.2.2.1]; rfl

theorem mkAdapter_ok {f : DjField} {a : Adapter} (h : mkAdapter f = .ok a) :
    lookupFieldCls f.clsName = some a.cls ∧ a.name = f.name := by
  unfold mkAdapter at h
  cases hc : lookupFieldCls f.clsName with
  | none => rw [hc] at h; exact Except.noConfusion h
  | some c =>
    rw [hc] at h
    cases c
    case ForeignKey =>
      cases hr : f.related with
      | none => rw [hr] at h; exact Except.noConfusion h
      | some r => rw [hr] at h; injection h with h; subst h; exact ⟨rfl, rfl⟩
    case ManyToManyField =>
      cases hr : f.related with
      | none => rw [hr] at h; exact Except.noConfusion h
      | some r => rw [hr] at h; injection h with h; subst h; exact ⟨rfl, rfl⟩
    all_goals (injection h with h; subst h; exact ⟨rfl, rfl⟩)

theorem get_fields_list_forall {fs : List DjField} {l : List Adapter}
    (h : get_fields_list fs = .ok l) :
    List.Forall₂ (fun f a => mkAdapter f = .ok a) fs l := by
  induction fs generalizing l with
  | nil =>
    unfold get_fields_list at h
    injection h with h
    subst h
    exact List.Forall₂.nil
  | cons f rest ih =>
    unfold get_fields_list at h
    cases ha : mkAdapter f with
    | error e => rw [ha] at h; exact Except.noConfusion h
    | ok a =>
      rw [ha] at h
      cases hrest : get_fields_list rest with
      | error e => rw [hrest] at h; exact Except.noConfusion h
      | ok lrest =>
        rw [hrest] at h
        injection h with h
        subst h
        exact List.Forall₂.cons ha (ih hrest)

/-- Folding Python-dict insertion over pairwise-fresh keys appends the
keyed entries in order. -/
theorem foldl_dinsert_fresh {α : Type} (key : α → String) (l : List α) :
    ∀ acc : List (String × α),
    (l.map key).Nodup →
    (∀ a ∈ l, key a ∉ acc.map Prod.fst) →
    l.foldl (fun d a => dinsert d (key a) a) acc =
      acc ++ l.map (fun a => (key a, a)) := by
  induction l with
  | nil => intro acc _ _; simp
  | cons a rest ih =>
    intro acc hnd hfresh
    rw [List.foldl_cons, dinsert_fresh _ _ _ (hfresh a (List.mem_cons_self a rest))]
    have hka : key a ∉ rest.map key := by
      have := hnd
      rw [List.map_cons, List.nodup_cons] at this
      exact this.1
    rw [ih (acc ++ [(key a, a)]) (by simpa using hnd.of_cons)
      (by
        intro b hb
        simp only [List.map_append, List.mem_append]
        rintro (hin | hin)
        · exact hfresh b (List.mem_cons_of_mem a hb) hin
        · simp at hin
          exact hka (hin ▸ List.mem_map_of_mem key hb))]
    simp

theorem lookup_map_key {α : Type} (key : α → String) (l : List α)
    (hnd : (l.map key).Nodup) :
    ∀ a ∈ l, (l.map (fun a => (key a, a))).lookup (key a) = some a := by
  induction l with
  | nil => intro a ha; cases ha
  | cons b rest ih =>
    intro a ha
    have hkb : key b ∉ rest.map key := by
      have := hnd
      rw [List.map_cons, List.nodup_cons] at this
      exact this.1
    rcases List.mem_cons.mp ha with ha | ha
    · subst ha
      simp [List.lookup]
    · have hne : key a ≠ key b := by
        intro hcon
        exact hkb (hcon ▸ List.mem_map_of_mem key ha)
      have hbeq : (key a == key b) = false := beq_eq_false_iff_ne.mpr hne
      simp only [List.map_cons, List.lookup, hbeq]
      exact ih (by simpa using hnd.of_cons) a ha

theorem schema_loop_keys (fields : List Adapter) :
    ∀ (acc schema : List (String × PyVal)),
    (fields.map Adapter.name).Nodup →
    (∀ a ∈ fields, a.name ∉ acc.map Prod.fst) →
    schema_loop fields acc = .ok schema →
    schema.map Prod.fst = acc.map Prod.fst ++ fields.map Adapter.name := by
  induction fields with
  | nil =>
    intro acc schema _ _ h
    unfold schema_loop at h
    injection h with h
    subst h
    simp
  | cons f rest ih =>
    intro acc schema hnd hfresh h
    unfold schema_loop at h
    cases hsi : f.schema_info with
    | error e => rw [hsi] at h; exact Except.noConfusion h
    | ok si =>
      rw [hsi] at h
      have h2 : schema_loop rest (dinsert acc f.name (.dict si)) = .ok schema := h
      rw [dinsert_fresh _ _ _ (hfresh f (List.mem_cons_self f rest))] at h2
      have hkf : f.name ∉ rest.map Adapter.name := by
        have := hnd
        rw [List.map_cons, List.nodup_cons] at this
        exact this.1
      have := ih (acc ++ [(f.name, .dict si)]) schema
        (by simpa using hnd.of_cons)
        (by
          intro b hb
          simp only [List.map_append, List.mem_append]
          rintro (hin | hin)
          · exact hfresh b (List.mem_cons_of_mem f hb) hin
          · simp at hin
            exact hkf (hin ▸ List.mem_map_of_mem Adapter.name hb)) h2
      rw [this]
      simp

theorem forall2_adapter_names {fs : List DjField} {l : List Adapter}
    (h : List.Forall₂ (fun f a => mkAdapter f = .ok a) fs l) :
    l.map Adapter.name = fs.map DjField.name := by
  induction h with
  | nil => rfl
  | cons h1 _ ih =>
    simp only [List.map_cons, ih, List.cons.injEq, and_true]
    exact (mkAdapter_ok h1).2

/-- C3: each model field yields exactly one adapter, chosen by dispatching
on the field's class name and carrying the field's name; `fields_dict`
maps each field name to its unique adapter; and the schema view's 200
output has exactly the model's field names as keys, one entry per field,
in field order. -/
theorem resource_fields_schema_spec (m : DjModel) (l : List Adapter)
    (hok : get_fields m = .ok l)
    (hnd : (m.fields.map DjField.name).Nodup) :
    List.Forall₂
      (fun f a => lookupFieldCls f.clsName = some a.cls ∧ a.name = f.name)
      m.fields l ∧
    (∀ a ∈ l, (get_fields_dict l).lookup a.name = some a) ∧
    (∀ s st, schema_get_content_data l = .ok (s, st) →
      s.map Prod.fst = m.fields.map DjField.name ∧ st = 200) := by
  have hfa := get_fields_list_forall hok
  have hdisp : List.Forall₂
      (fun f a => lookupFieldCls f.clsName = some a.cls ∧ a.name = f.name)
      m.fields l := by
    refine List.Forall₂.imp ?_ hfa
    intro f a h
    exact mkAdapter_ok h
  have hnames : l.map Adapter.name = m.fields.map DjField.name :=
    forall2_adapter_names hfa
  have hndl : (l.map Adapter.name).Nodup := by rw [hnames]; exact hnd
  refine ⟨hdisp, ?_, ?_⟩
  · intro a ha
    unfold get_fields_dict
    rw [foldl_dinsert_fresh Adapter.name l [] hndl (by intro b _; simp)]
    rw [List.nil_append]
    exact lookup_map_key Adapter.name l hndl a ha
  · intro s st h
    unfold schema_get_content_data at h
    cases hs : schema_loop l [] with
    | error e => rw [hs] at h; exact Except.noConfusion h
    | ok schema =>
      rw [hs] at h
      injection h with h
      injection h with h1 h2
      refine ⟨?_, h2.symm⟩
      rw [← h1]
      have := schema_loop_keys l [] schema hndl (by intro b _; simp) hs
      rw [this, hnames]
      simp

/-- C2: `process_param` splits the parameter on `'__'`; a single-segment
parameter gets the lookup `exact`; more than two segments raise a 400
`RESTError`; a lookup outside the allow-list raises a 400 `RESTError`;
for any allowed lookup other than `range` and `in`, more than one value
raises a 400 `RESTError` and otherwise the single value is extracted;
for `range` and `in` the value stays a list; on success the original
parameter string is returned unchanged with the processed value. -/
theorem process_param_spec (a : Adapter) (param : String) (value : List String)
    (hv : value ≠ []) :
    (2 < (pySplitDunder param).length →
      ∃ c, a.process_param param value = .error (.restError 400 c)) ∧
    ((pySplitDunder param).length ≤ 2 →
      let lookupType :=
        if (pySplitDunder param).length = 1 then "exact"
        else (pySplitDunder param).getD 1 ""
      (lookupType ∉ lookupAllowed →
        ∃ c, a.process_param param value = .error (.restError 400 c)) ∧
      (lookupType ∈ lookupAllowed → lookupType ≠ "range" → lookupType ≠ "in" →
        (1 < value.length →
          ∃ c, a.process_param param value = .error (.restError 400 c)) ∧
        (value.length = 1 →
          a.process_param param value = .ok (param, .single (value.headD "")))) ∧
      ((lookupType = "range" ∨ lookupType = "in") →
        a.process_param param value = .ok (param, .multi value))) := by
  have hne : pySplitDunder param ≠ [] := by
    unfold pySplitDunder
    intro hcon
    exact splitDunder_ne_nil param.data (by simpa using hcon)
  by_cases h1 : (pySplitDunder param).length = 1
  · rcases List.length_eq_one.mp h1 with ⟨x, hx⟩
    constructor
    · intro hgt; rw [hx] at hgt; simp at hgt
    · intro _
      have hlk : (if (pySplitDunder param).length = 1 then "exact"
          else (pySplitDunder param).getD 1 "") = "exact" := by simp [h1]
      simp only [hlk]
      have hrun : ∀ r, a.process_param param value = r ↔
          (if 1 < value.length then
            Except.error (.restError 400
              (.dict [("Error", PyVal.str ("exact only takes a single value."))]))
          else match value with
            | v :: _ => Except.ok (param, PValue.single v)
            | [] => Except.error .indexError) = r := by
        intro r
        unfold Adapter.process_param
        rw [hx]
        simp [lookupAllowed]
      refine ⟨?_, ?_, ?_⟩
      · intro hmem; exact absurd (by decide) hmem
      · intro _ _ _
        constructor
        · intro hlen
          refine ⟨.dict [("Error", .str ("exact only takes a single value."))],
            (hrun _).mpr ?_⟩
          simp [hlen]
        · intro hlen
          rcases List.length_eq_one.mp hlen with ⟨v, hvv⟩
          refine (hrun _).mpr ?_
          rw [hvv]
          simp
      · intro hr; rcases hr with hr | hr <;> exact absurd hr (by decide)
  · by_cases h2 : 2 < (pySplitDunder param).length
    · constructor
      · intro _
        refine ⟨.dict [("Error", .str ("Field " ++ a.name ++ " has no relations"))], ?_⟩
        unfold Adapter.process_param
        simp [h1, if_pos h2]
      · intro hle; omega
    · have h02 : (pySplitDunder param).length = 2 := by
        have h0 : 0 < (pySplitDunder param).length := List.length_pos.mpr hne
        omega
      rcases List.length_eq_two.mp h02 with ⟨x, y, hxy⟩
      constructor
      · intro hgt; omega
      · intro _
        have hlk : (if (pySplitDunder param).length = 1 then "exact"
            else (pySplitDunder param).getD 1 "") = y := by simp [h1, hxy]
        simp only [hlk]
        by_cases hmem : y ∈ lookupAllowed
        · refine ⟨?_, ?_, ?_⟩
          · intro hnm
            exact absurd hmem hnm
          · intro _ hry hiy
            constructor
            · intro hlen
              refine ⟨.dict [("Error", .str (y ++ " only takes a single value."))], ?_⟩
              unfold Adapter.process_param
              rw [hxy]
              simp [hmem, hry, hiy, hlen]
            · intro hlen
              rcases List.length_eq_one.mp hlen with ⟨v, hvv⟩
              subst hvv
              unfold Adapter.process_param
              rw [hxy]
              simp [hmem, hry, hiy]
          · intro hr
            rcases hr with hr | hr <;> subst hr <;>
              (unfold Adapter.process_param; rw [hxy]; simp [hmem])
        · refine ⟨?_, ?_, ?_⟩
          · intro _
            refine ⟨.dict [("Error",
              .str (y ++ " is not a valid lookup type for field " ++ x))], ?_⟩
            unfold Adapter.process_param
            rw [hxy]
            simp [hmem]
          · intro hm
            exact absurd hm hmem
          · intro hr
            have hmy : y ∈ lookupAllowed := by
              rcases hr with hr | hr <;> subst hr <;> decide
            exact absurd hmy hmem

/-- Witness for C2: a two-segment parameter with an allowed scalar lookup
(`one__gt`) and a single value succeeds, returning the parameter unchanged
and the extracted single value. -/
theorem process_param_spec_witness :
    ({ cls := .IntegerField, name := "one", null := false, blank := false,
       editable := true, help_text := "", primary_key := false,
       unique := false, default := Option.none } : Adapter).process_param
      "one__gt" ["5"] = .ok ("one__gt", .single "5") := by
  have h := process_param_spec
    { cls := .IntegerField, name := "one", null := false, blank := false,
      editable := true, help_text := "", primary_key := false,
      unique := false, default := Option.none }
    "one__gt" ["5"] (by decide)
  have h2 := (h.2 (by decide)).2.1 (by decide) (by decide) (by decide)
  exact h2.2 rfl

/-- C9: for the base `Field` adapter and the `IntegerField`, `DecimalField`,
`FloatField`, `NullBooleanField`, `DateField` and `ForeignKey` adapters,
`to_json` returns `None` for every falsy input value, not only for NULL;
only `BooleanField.to_json` returns `False` for falsy input. -/
theorem to_json_falsy_is_none (v : PyVal) (h : truthy v = false) :
    toJson .Field v = .ok .none ∧
    toJson .IntegerField v = .ok .none ∧
    toJson .DecimalField v = .ok .none ∧
    toJson .FloatField v = .ok .none ∧
    toJson .NullBooleanField v = .ok .none ∧
    toJson .DateField v = .ok .none ∧
    toJson .ForeignKey v = .ok .none ∧
    toJson .BooleanField v = .ok (.bool false) := by
  simp [toJson, h]

/-- Witness for C9: the integer 0, the float 0.0 and the empty string all
serialise to `None` through the corresponding adapters. -/
theorem to_json_falsy_is_none_witness :
    toJson .IntegerField (.int 0) = .ok .none ∧
    toJson .FloatField (.float 0) = .ok .none ∧
    toJson .Field (.str "") = .ok .none ∧
    toJson .BooleanField (.int 0) = .ok (.bool false) :=
  ⟨(to_json_falsy_is_none (.int 0) rfl).2.1,
   (to_json_falsy_is_none (.float 0) (by decide)).2.2.2.1,
   (to_json_falsy_is_none (.str "") rfl).1,
   (to_json_falsy_is_none (.int 0) rfl).2.2.2.2.2.2.2⟩

/-- C10: `schema_info` always starts with the keys `name`, `type`, `null`,
`blank`, `editable`, `help_text`, `primary_key`, `unique` in that order;
it contains the key `default` iff the field declares a default (its
`default` differs from the `NOT_PROVIDED` sentinel); when present, the
value is `to_json` of the default, falling back to the default's string
form when `to_json` raises `TypeError` or `AttributeError`. -/
theorem schema_info_spec (a : Adapter) (l : List (String × PyVal))
    (h : a.schema_info = .ok l) :
    (l.map Prod.fst).take 8 =
      ["name", "type", "null", "blank", "editable", "help_text",
       "primary_key", "unique"] ∧
    (("default" ∈ l.map Prod.fst) ↔ a.default ≠ Option.none) ∧
    (∀ d, a.default = some d →
      (∀ j, toJson a.cls d = .ok j → l.lookup "default" = some j) ∧
      (∀ e, toJson a.cls d = .error e → (e = .typeError ∨ e = .attributeError) →
        l.lookup "default" = some (.str (pyStr d)))) := by
  have hfk : a.fkExtras.map Prod.fst = [] ∨
      a.fkExtras.map Prod.fst = ["related_model", "related_name", "to_fields"] := by
    cases hc : a.cls <;> simp [Adapter.fkExtras, hc]
  unfold Adapter.schema_info at h
  cases hd : a.default with
  | none =>
    simp only [hd, Except.ok.injEq] at h
    subst h
    refine ⟨?_, ?_, ?_⟩
    · rcases hfk with hfk | hfk <;> simp [hfk]
    · rcases hfk with hfk | hfk <;> simp [hfk]
    · intro d hcon; exact absurd hcon (by simp)
  | some d =>
    simp only [hd] at h
    cases hj : toJson a.cls d with
    | ok j =>
      simp only [hj, Except.ok.injEq] at h
      subst h
      refine ⟨?_, ?_, ?_⟩
      · rcases hfk with hfk | hfk <;> simp [hfk]
      · rcases hfk with hfk | hfk <;> simp [hfk]
      · intro d' hd'
        injection hd' with hd'
        subst hd'
        constructor
        · intro j' hj'
          rw [hj] at hj'
          injection hj' with hj'
          subst hj'
          simp [List.lookup]
        · intro e he
          rw [hj] at he
          exact absurd he (by simp)
    | error e =>
      cases e with
      | typeError =>
        simp only [hj, Except.ok.injEq] at h
        subst h
        refine ⟨?_, ?_, ?_⟩
        · rcases hfk with hfk | hfk <;> simp [hfk]
        · rcases hfk with hfk | hfk <;> simp [hfk]
        · intro d' hd'
          injection hd' with hd'
          subst hd'
          constructor
          · intro j' hj'
            rw [hj] at hj'
            exact absurd hj' (by simp)
          · intro e' _ _
            simp [List.lookup]
      | attributeError =>
        simp only [hj, Except.ok.injEq] at h
        subst h
        refine ⟨?_, ?_, ?_⟩
        · rcases hfk with hfk | hfk <;> simp [hfk]
        · rcases hfk with hfk | hfk <;> simp [hfk]
        · intro d' hd'
          injection hd' with hd'
          subst hd'
          constructor
          · intro j' hj'
            rw [hj] at hj'
            exact absurd hj' (by simp)
          · intro e' _ _
            simp [List.lookup]
      | valueError => simp only [hj] at h; exact Except.noConfusion h
      | indexError => simp only [hj] at h; exact Except.noConfusion h
      | keyError => simp only [hj] at h; exact Except.noConfusion h
      | restError s c => simp only [hj] at h; exact Except.noConfusion h

/-- Witness for C10: a `CharField` adapter with default `"spam"` (the test
fixture's field `two`) yields a schema whose ninth entry is
`default = "spam"`, after the eight fixed keys. -/
theorem schema_info_spec_witness :
    (List.lookup "default"
      [("name", PyVal.str "two"), ("type", PyVal.str "CharField"),
       ("null", PyVal.bool false), ("blank", PyVal.bool false),
       ("editable", PyVal.bool true), ("help_text", PyVal.str ""),
       ("primary_key", PyVal.bool false), ("unique", PyVal.bool false),
       ("default", PyVal.str "spam")] = some (PyVal.str "spam")) ∧
    (([("name", PyVal.str "two"), ("type", PyVal.str "CharField"),
       ("null", PyVal.bool false), ("blank", PyVal.bool false),
       ("editable", PyVal.bool true), ("help_text", PyVal.str ""),
       ("primary_key", PyVal.bool false), ("unique", PyVal.bool false),
       ("default", PyVal.str "spam")].map Prod.fst).take 8 =
      ["name", "type", "null", "blank", "editable", "help_text",
       "primary_key", "unique"]) := by
  have h := schema_info_spec
    { cls := .CharField, name := "two", null := false, blank := false,
      editable := true, help_text := "", primary_key := false,
      unique := false, default := some (.str "spam") }
    [("name", PyVal.str "two"), ("type", PyVal.str "CharField"),
     ("null", PyVal.bool false), ("blank", PyVal.bool false),
     ("editable", PyVal.bool true), ("help_text", PyVal.str ""),
     ("primary_key", PyVal.bool false), ("unique", PyVal.bool false),
     ("default", PyVal.str "spam")] rfl
  exact ⟨((h.2.2 _ rfl).1 _ rfl), h.1⟩

/-- Witness for C3: the `Simple` model's three fields dispatch to an
`AutoField`, an `IntegerField` and a `CharField` adapter, and the fields
dict maps `one` to its adapter. -/
theorem resource_fields_schema_spec_witness :
    (get_fields_dict
      [{ cls := .AutoField, name := "id", null := false, blank := true,
         editable := true, help_text := "", primary_key := true,
         unique := true, default := Option.none },
       { cls := .IntegerField, name := "one", null := false, blank := false,
         editable := true, help_text := "", primary_key := false,
         unique := false, default := Option.none },
       { cls := .CharField, name := "two", null := false, blank := false,
         editable := true, help_text := "", primary_key := false,
         unique := false, default := some (.str "spam") }]).lookup "one" =
      some { cls := .IntegerField, name := "one", null := false,
             blank := false, editable := true, help_text := "",
             primary_key := false, unique := false,
             default := Option.none } := by
  have h := resource_fields_schema_spec simpleModel
    [{ cls := .AutoField, name := "id", null := false, blank := true,
       editable := true, help_text := "", primary_key := true,
       unique := true, default := Option.none },
     { cls := .IntegerField, name := "one", null := false, blank := false,
       editable := true, help_text := "", primary_key := false,
       unique := false, default := Option.none },
     { cls := .CharField, name := "two", null := false, blank := false,
       editable := true, help_text := "", primary_key := false,
       unique := false, default := some (.str "spam") }]
    rfl (by decide)
  exact h.2.1 _ (List.mem_cons_of_mem _ (List.mem_cons_self _ _))

/-- C4 (code bug): `discover_models` does skip abstract models, but the
very first non-abstract model makes `ModelResource(model)` (apis.py
line 31) raise `TypeError`, because `ModelResource.__init__` requires the
positional arguments `(model, api)` (resource.py line 20).  With only the
abstract model registered, discovery succeeds and registers nothing. -/
theorem discover_models_typeerror :
    discover_models (fun _ => testForm) [abstractModel, simpleModel] =
      .error .typeError ∧
    discover_models (fun _ => testForm) [abstractModel] = .ok [] := by
  constructor <;> rfl

/-- C5 (code bug): the resource's URL regexes and reverse names are
exactly as claimed, but `get_urls` evaluates `resource.view` (apis.py
line 49), an attribute `ModelResource.__init__` never sets (it sets
`query_view`), so building the URL table for any registered resource
raises `AttributeError` instead of returning the four entries. -/
theorem get_urls_view_attribute_missing :
    (mkModelResource simpleModel "django_snooze" (fun _ => testForm)).map
      (fun r => (r.query_url_re, r.query_reverse_name, r.schema_url_re,
        r.schema_reverse_name, r.pk_url_re, r.pk_reverse_name,
        r.new_url_re, r.new_reverse_name)) =
      .ok ("^tests/simple/$", "snooze_tests_simple_query",
           "^tests/simple/schema/$", "snooze_tests_simple_schema",
           "^tests/simple/(?P<pk>\\d+)/$", "snooze_tests_simple_pk",
           "^tests/simple/new/$", "snooze_tests_simple_new") ∧
    get_urls [("tests", [simpleResource])] = .error .attributeError := by
  constructor <;> rfl

theorem mem_dinsert_keys {α : Type} (d : List (String × α)) (k2 : String)
    (v : α) (k : String) :
    k ∈ (dinsert d k2 v).map Prod.fst ↔ k = k2 ∨ k ∈ d.map Prod.fst := by
  unfold dinsert
  by_cases hany : (d.any (fun p => p.1 = k2)) = true
  · rw [if_pos hany]
    have hk2 : k2 ∈ d.map Prod.fst := by
      rcases List.any_eq_true.mp hany with ⟨p, hp, hpk⟩
      have hpe : p.1 = k2 := of_decide_eq_true hpk
      exact hpe ▸ List.mem_map_of_mem Prod.fst hp
    have hkeys : (d.map (fun p => if p.1 = k2 then (k2, v) else p)).map Prod.fst
        = d.map Prod.fst := by
      rw [List.map_map]
      apply List.map_congr_left
      intro p _
      by_cases hh : p.1 = k2
      · simp [hh]
      · simp [hh]
    rw [hkeys]
    constructor
    · exact Or.inr
    · rintro (h | h)
      · exact h ▸ hk2
      · exact h
  · rw [if_neg hany]
    rw [List.map_append]
    simp only [List.mem_append, List.map_cons, List.map_nil,
      List.mem_singleton]
    exact or_comm

theorem collect_errors_go_keys (p : String → Bool) (msg : String → PyVal)
    (fl : List String) :
    ∀ (acc : List (String × PyVal)) (k : String),
    (k ∈ (fl.foldl (fun d f => if !(p f) then dinsert d f (msg f) else d)
        acc).map Prod.fst) ↔
      (k ∈ acc.map Prod.fst ∨ (k ∈ fl ∧ p k = false)) := by
  induction fl with
  | nil => intro acc k; simp
  | cons f rest ih =>
    intro acc k
    rw [List.foldl_cons]
    by_cases hp : p f = true
    · rw [if_neg (by rw [hp]; simp)]
      rw [ih acc k]
      constructor
      · rintro (h | ⟨h1, h2⟩)
        · exact Or.inl h
        · exact Or.inr ⟨List.mem_cons_of_mem f h1, h2⟩
      · rintro (h | ⟨h1, h2⟩)
        · exact Or.inl h
        · rcases List.mem_cons.mp h1 with h1 | h1
          · subst h1; rw [hp] at h2; cases h2
          · exact Or.inr ⟨h1, h2⟩
    · have hp2 : p f = false := by
        cases hc : p f
        · rfl
        · exact absurd hc hp
      rw [if_pos (by rw [hp2]; simp)]
      rw [ih _ k, mem_dinsert_keys acc f (msg f) k]
      constructor
      · rintro ((h | h) | ⟨h1, h2⟩)
        · refine Or.inr ⟨?_, ?_⟩
          · rw [h]; exact List.mem_cons_self f rest
          · rw [h]; exact hp2
        · exact Or.inl h
        · exact Or.inr ⟨List.mem_cons_of_mem f h1, h2⟩
      · rintro (h | ⟨h1, h2⟩)
        · exact Or.inl (Or.inr h)
        · rcases List.mem_cons.mp h1 with h1 | h1
          · exact Or.inl (Or.inl h1)
          · exact Or.inr ⟨h1, h2⟩

theorem collect_errors_keys (p : String → Bool) (msg : String → PyVal)
    (fl : List String) (k : String) :
    k ∈ (collect_errors p msg fl).map Prod.fst ↔ (k ∈ fl ∧ p k = false) := by
  unfold collect_errors
  rw [collect_errors_go_keys p msg fl [] k]
  simp

theorem collect_errors_all_valid (p : String → Bool) (msg : String → PyVal)
    (fl : List String) (h : ∀ f ∈ fl, p f = true) :
    collect_errors p msg fl = [] := by
  unfold collect_errors
  have go : ∀ (l : List String) (acc : List (String × PyVal)),
      (∀ f ∈ l, p f = true) →
      l.foldl (fun d f => if !(p f) then dinsert d f (msg f) else d) acc = acc := by
    intro l
    induction l with
    | nil => intro acc _; rfl
    | cons f rest ih =>
      intro acc hall
      rw [List.foldl_cons, if_neg (by rw [hall f (List.mem_cons_self f rest)]; simp)]
      exact ih acc (fun g hg => hall g (List.mem_cons_of_mem f hg))
  exact go fl [] h

theorem collect_errors_nonempty (p : String → Bool) (msg : String → PyVal)
    (fl : List String) (f : String) (hf : f ∈ fl) (hbad : p f = false) :
    (collect_errors p msg fl).isEmpty = false := by
  have hmem : f ∈ (collect_errors p msg fl).map Prod.fst :=
    (collect_errors_keys p msg fl f).mpr ⟨hf, hbad⟩
  cases hce : collect_errors p msg fl with
  | nil => rw [hce] at hmem; cases hmem
  | cons a l => rfl

theorem render_rows_forall (r : ModelResource) (rvl : Option (List String)) :
    ∀ (rows : List QRow) (js : List PyVal),
    render_rows r rvl rows = .ok js →
    List.Forall₂ (fun row j => render_row r rvl row = .ok j) rows js := by
  intro rows
  induction rows with
  | nil =>
    intro js h
    unfold render_rows at h
    injection h with h
    subst h
    exact List.Forall₂.nil
  | cons row rest ih =>
    intro js h
    unfold render_rows at h
    cases hrow : render_row r rvl row with
    | error e => rw [hrow] at h; exact Except.noConfusion h
    | ok j =>
      rw [hrow] at h
      cases hrest : render_rows r rvl rest with
      | error e => rw [hrest] at h; exact Except.noConfusion h
      | ok js2 =>
        rw [hrest] at h
        injection h with h
        subst h
        exact List.Forall₂.cons hrow (ih js2 hrest)

theorem order_by_view_single (r : ModelResource) (q : QS) (f0 : String) :
    order_by_view r q [f0] =
      (if !(collect_errors (fun f => check_valid_field r (pyLstrip f '-'))
            (fun f => .str ("Field " ++ f ++ " is not orderable."))
            (pySplitComma f0)).isEmpty then
        .error (.restError 400 (.dict [("Errors", .dict
          (collect_errors (fun f => check_valid_field r (pyLstrip f '-'))
            (fun f => .str ("Field " ++ f ++ " is not orderable."))
            (pySplitComma f0)))]))
      else .ok (.orderBy q (pySplitComma f0))) := rfl

theorem values_list_view_single (r : ModelResource) (q : QS) (f0 : String) :
    values_list_view r q [f0] =
      (if !(collect_errors (fun f => check_valid_field r f)
            (fun f => .str ("Field " ++ f ++ " is not listable."))
            (pySplitComma f0)).isEmpty then
        .error (.restError 400 (.dict [("Errors", .dict
          (collect_errors (fun f => check_valid_field r f)
            (fun f => .str ("Field " ++ f ++ " is not listable."))
            (pySplitComma f0)))]))
      else .ok (.valuesList q (pySplitComma f0), pySplitComma f0)) := rfl

/-- C6 as amended: for the `__order_by` and `__values_list` system
parameters, more than one query-string value raises a 400 `RESTError`;
the single value is split on commas; if any resulting field name (after
stripping **all** leading `'-'` characters, Python `lstrip('-')`, for
`order_by` only) is not a field of the resource, a 400 `RESTError` is
raised carrying one error message per invalid field; otherwise the
queryset is ordered by, respectively restricted to, exactly the listed
fields, and with `values_list` active each result row of the 200 response
is rendered through the resource's tuple-to-JSON conversion of the
selected fields. -/
theorem query_system_params_spec (r : ModelResource) (q : QS)
    (v : List String) (f0 : String) (run : QS → List QRow) :
    (1 < v.length → ∃ c, order_by_view r q v = .error (.restError 400 c)) ∧
    (v = [f0] →
      ((∃ f ∈ pySplitComma f0, check_valid_field r (pyLstrip f '-') = false) →
        ∃ errs, order_by_view r q v =
            .error (.restError 400 (.dict [("Errors", .dict errs)])) ∧
          ∀ k, k ∈ errs.map Prod.fst ↔
            (k ∈ pySplitComma f0 ∧ check_valid_field r (pyLstrip k '-') = false)) ∧
      ((∀ f ∈ pySplitComma f0, check_valid_field r (pyLstrip f '-') = true) →
        order_by_view r q v = .ok (.orderBy q (pySplitComma f0)))) ∧
    (1 < v.length → ∃ c, values_list_view r q v = .error (.restError 400 c)) ∧
    (v = [f0] →
      ((∃ f ∈ pySplitComma f0, check_valid_field r f = false) →
        ∃ errs, values_list_view r q v =
            .error (.restError 400 (.dict [("Errors", .dict errs)])) ∧
          ∀ k, k ∈ errs.map Prod.fst ↔
            (k ∈ pySplitComma f0 ∧ check_valid_field r k = false)) ∧
      ((∀ f ∈ pySplitComma f0, check_valid_field r f = true) →
        values_list_view r q v =
          .ok (.valuesList q (pySplitComma f0), pySplitComma f0))) ∧
    ((∀ f ∈ pySplitComma f0, check_valid_field r f = true) →
      query_get_content_data r run ⟨[("values_list", [f0])], [], []⟩ =
        (match render_rows r (some (pySplitComma f0))
            (run (.valuesList r.queryset (pySplitComma f0))) with
         | .error e => .error e
         | .ok objs => .ok (.dict [("objects", .list objs)], 200))) ∧
    (∀ rows js, render_rows r (some (pySplitComma f0)) rows = .ok js →
      List.Forall₂ (fun row j => tuple_to_json r row (pySplitComma f0) = .ok j)
        rows js) := by
  refine ⟨?_, ?_, ?_, ?_, ?_, ?_⟩
  · intro hlen
    refine ⟨.str "Order_by needs a single comma separated string.", ?_⟩
    unfold order_by_view
    rw [if_pos hlen]
  · rintro rfl
    constructor
    · rintro ⟨f, hf, hbad⟩
      refine ⟨collect_errors (fun g => check_valid_field r (pyLstrip g '-'))
        (fun g => .str ("Field " ++ g ++ " is not orderable."))
        (pySplitComma f0), ?_, ?_⟩
      · rw [order_by_view_single]
        rw [if_pos (by
          rw [collect_errors_nonempty _ _ _ f hf hbad]
          rfl)]
      · intro k
        exact collect_errors_keys _ _ _ k
    · intro hall
      rw [order_by_view_single]
      rw [if_neg (by
        rw [collect_errors_all_valid _ _ _ hall]
        simp)]
  · intro hlen
    refine ⟨.str "values_list needs a single comma seperated string.", ?_⟩
    unfold values_list_view
    rw [if_pos hlen]
  · rintro rfl
    constructor
    · rintro ⟨f, hf, hbad⟩
      refine ⟨collect_errors (fun g => check_valid_field r g)
        (fun g => .str ("Field " ++ g ++ " is not listable."))
        (pySplitComma f0), ?_, ?_⟩
      · rw [values_list_view_single]
        rw [if_pos (by
          rw [collect_errors_nonempty _ _ _ f hf hbad]
          rfl)]
      · intro k
        exact collect_errors_keys _ _ _ k
    · intro hall
      rw [values_list_view_single]
      rw [if_neg (by
        rw [collect_errors_all_valid _ _ _ hall]
        simp)]
  · intro hall
    have hvl : values_list_view r r.queryset [f0] =
        .ok (.valuesList r.queryset (pySplitComma f0), pySplitComma f0) := by
      rw [values_list_view_single]
      rw [if_neg (by
        rw [collect_errors_all_valid _ _ _ hall]
        simp)]
    have hred : construct_queryset r ⟨[("values_list", [f0])], [], []⟩ =
        (match values_list_view r r.queryset [f0] with
         | .error e => .error e
         | .ok (q2, fl) => .ok (q2, some fl)) := rfl
    have hcq : construct_queryset r ⟨[("values_list", [f0])], [], []⟩ =
        .ok (.valuesList r.queryset (pySplitComma f0),
          some (pySplitComma f0)) := by
      rw [hred, hvl]
    unfold query_get_content_data
    rw [hcq]
  · intro rows js h
    have := render_rows_forall r (some (pySplitComma f0)) rows js h
    exact this

/-- Witness for the amended C6: ordering the `Simple` resource by
`-one,two` succeeds and orders by exactly those fields. -/
theorem query_system_params_spec_witness :
    order_by_view simpleResource (QS.all "tests" "simple") ["-one,two"] =
      .ok (.orderBy (QS.all "tests" "simple") ["-one", "two"]) := by
  have h := (query_system_params_spec simpleResource (QS.all "tests" "simple")
      ["-one,two"] "-one,two" (fun _ => [])).2.1 rfl
  exact h.2 (by decide)

/-- Counterexample for C6 as stated: for the order-by field `--one` on the
`Simple` resource, stripping one leading `'-'` gives `-one`, which is not
a field, so the claim demands a 400 `RESTError`; the code strips all
leading dashes (`lstrip('-')`), finds the field `one`, and accepts the
parameter, passing `--one` straight to the ORM. -/
theorem order_by_lstrip_counterexample :
    order_by_view simpleResource simpleResource.queryset ["--one"] =
      .ok (.orderBy simpleResource.queryset ["--one"]) ∧
    pySplitComma "--one" = ["--one"] ∧
    check_valid_field simpleResource "-one" = false ∧
    pyLstrip "--one" '-' = "one" ∧
    check_valid_field simpleResource "one" = true := by
  refine ⟨rfl, rfl, rfl, rfl, rfl⟩

/-- C7: `new_view` accepts only a POST whose content type contains
`application/json` (400 `Bad request` otherwise, evaluated before the
body); an accepted body is fed to the model form; a valid form is saved
and answered 201 `success`; an invalid form is answered 400 with the
form's errors and nothing is saved. -/
theorem new_view_spec (r : ModelResource) (req : PyRequest)
    (db : List (List (String × PyVal))) :
    (req.method ≠ "POST" →
      new_view r req db =
        .ok ((.dict [("Status", .str "Bad request")], 400), db)) ∧
    (∀ ct, req.method = "POST" → req.content_type = some ct →
      pyIn "application/json" ct = false →
      new_view r req db =
        .ok ((.dict [("Status", .str "Bad request")], 400), db)) ∧
    (∀ ct d, req.method = "POST" → req.content_type = some ct →
      pyIn "application/json" ct = true → req.body = some d →
      r.form.is_valid d = true →
      new_view r req db =
        .ok ((.dict [("Status", .str "success")], 201),
          db ++ [r.form.save d])) ∧
    (∀ ct d, req.method = "POST" → req.content_type = some ct →
      pyIn "application/json" ct = true → req.body = some d →
      r.form.is_valid d = false →
      new_view r req db = .ok ((r.form.errors d, 400), db)) := by
  refine ⟨?_, ?_, ?_, ?_⟩
  · intro hm
    unfold new_view
    rw [if_neg hm]
  · intro ct hm hct hjson
    unfold new_view
    rw [if_pos hm, hct]
    simp only [hjson]
    rw [if_neg (by simp)]
  · intro ct d hm hct hjson hbody hvalid
    unfold new_view
    rw [if_pos hm, hct]
    simp only [hjson, if_true, hbody]
    rw [if_pos hvalid]
  · intro ct d hm hct hjson hbody hvalid
    unfold new_view
    rw [if_pos hm, hct]
    simp only [hjson, if_true, hbody]
    rw [if_neg (by rw [hvalid]; simp)]

/-- Witness for C7: a JSON POST with the required field creates the object
(201 and one saved object); a GET is answered 400 `Bad request`. -/
theorem new_view_spec_witness :
    new_view simpleResource
      { method := "POST", content_type := some "application/json",
        body := some [("one", .int 42)] } [] =
      .ok ((.dict [("Status", .str "success")], 201),
        [[("one", PyVal.int 42)]]) ∧
    new_view simpleResource
      { method := "GET", content_type := Option.none, body := Option.none } [] =
      .ok ((.dict [("Status", .str "Bad request")], 400), []) := by
  constructor
  · have h := (new_view_spec simpleResource
      { method := "POST", content_type := some "application/json",
        body := some [("one", .int 42)] } []).2.2.1 "application/json"
      [("one", .int 42)] rfl rfl (by decide) rfl (by decide)
    simpa using h
  · exact (new_view_spec simpleResource
      { method := "GET", content_type := Option.none, body := Option.none }
      []).1 (by decide)

/-- C8: no request handler modifies the resource: the query, schema,
single-object and creation handlers all return the resource exactly as
given, and the per-request parameter buckets live in the view-instance
state returned next to it, not on the resource. -/
theorem request_handlers_frame (r : ModelResource) (run : QS → List QRow)
    (fetch : QS → Int → Option (List (String × PyVal)))
    (getD : List (String × List String)) (pk : Int) (req : PyRequest)
    (db : List (List (String × PyVal))) :
    (query_view_get r run getD).2.1 = r ∧
    (query_view_get r run getD).2.2 = parse_get_data getD ∧
    (schema_view_get r).2 = r ∧
    (object_view_get r fetch pk).2 = r ∧
    (new_view_handler r req db).2.1 = r := by
  refine ⟨rfl, rfl, rfl, rfl, ?_⟩
  unfold new_view_handler
  cases h : new_view r req db with
  | error e => rfl
  | ok p => cases p; rfl

end Snooze
